import Mathlib

/-!
Verification of the PawPal pet-care scheduling system.

This file is a shallow embedding of the core logic of
`src/pawpal_system.py`: the domain model (Task, Pet, Owner), the schedule
model (ScheduledTask, Schedule) and the priority-greedy scheduler
(`PriorityGreedyScheduler.generate_schedule`), together with theorems
settling the specification's claims about them.

Modelling conventions:
* Python `int` fields become `Int` (the dataclasses perform no validation,
  so negative values are representable, exactly as in the source).
* Python `datetime.time` values are represented as minutes after midnight
  (`Int`, always in `[0, 1440)` for values the code constructs).  Python's
  time arithmetic `(datetime.combine(today, t) + timedelta(minutes=d)).time()`
  wraps modulo 24 hours, i.e. modulo 1440 minutes; this is `Int.emod _ 1440`,
  which agrees with Python's `%` on negative values as well.
* Python `float` percentages become `ℚ`.  `round(x, 2)` is modelled as
  `roundTo2`; at every value the claims touch the rational and the Python
  float computation agree exactly.
* The `while` loop of `generate_schedule` removes exactly one task from the
  candidate pool per iteration, so it runs at most `pool.length` iterations;
  the embedding `greedyLoop` makes that bound explicit with a fuel argument
  and `generate_schedule` instantiates the fuel with the pool length.
-/

namespace PawPal

/-- Priority enum of the source (`Priority`), with its numeric ordinals. -/
inductive Priority where
  | low
  | medium
  | high
  | critical
deriving DecidableEq, Repr

/-- Numeric value of the enum member (`Priority.LOW = 1`, ..., `CRITICAL = 4`). -/
def Priority.value : Priority → Int
  | .low => 1
  | .medium => 2
  | .high => 3
  | .critical => 4

/-- Python enum member name (`priority.name`). -/
def Priority.pyName : Priority → String
  | .low => "LOW"
  | .medium => "MEDIUM"
  | .high => "HIGH"
  | .critical => "CRITICAL"

/-- Category enum of the source (`TaskCategory`). -/
inductive TaskCategory where
  | walk
  | feeding
  | medication
  | grooming
  | enrichment
deriving DecidableEq, Repr

/-- Frequency enum of the source (`TaskFrequency`). -/
inductive TaskFrequency where
  | once
  | daily
  | weekly
  | monthly
deriving DecidableEq, Repr

/-- The `Task` dataclass.  Its `__post_init__` only defaults `frequency` to
`ONCE`; there is no validation of any field, so any `Int` duration is
representable, exactly as in the Python source. -/
structure Task where
  title : String
  duration_minutes : Int
  priority : Priority
  category : TaskCategory
  description : String := ""
  frequency : TaskFrequency := .once
  is_completed : Bool := false
deriving DecidableEq, Repr

/-- The method `Task.get_priority_score`. -/
def Task.get_priority_score (t : Task) : Int := t.priority.value

/-- The method `Task.mark_complete`.  The Python method mutates
`self.is_completed` and returns an `Optional[Task]`; the embedding returns
the updated task together with the optional next occurrence.  The clone is
built field by field from the receiver, with `is_completed=False`. -/
def Task.mark_complete (t : Task) : Task × Option Task :=
  let t' : Task := { t with is_completed := true }
  if t.frequency ≠ TaskFrequency.once then
    (t', some { title := t.title
                duration_minutes := t.duration_minutes
                priority := t.priority
                category := t.category
                description := t.description
                frequency := t.frequency
                is_completed := false })
  else
    (t', none)

/-- The `Pet` dataclass (fields the scheduler reads). -/
structure Pet where
  name : String
  species : String
  age_years : ℚ := 0
  tasks : List Task := []
deriving DecidableEq, Repr

/-- The `OwnerPreferences` dataclass (modelled for completeness; the shipped
scheduler never consults it). -/
structure OwnerPreferences where
  preferred_task_order : List TaskCategory := []
  priority_threshold : Priority := .low
  group_similar_tasks : Bool := false
deriving DecidableEq, Repr

/-- The `Owner` dataclass. -/
structure Owner where
  name : String
  available_time_minutes : Int
  pets : List Pet := []
  preferences : OwnerPreferences := {}
deriving DecidableEq, Repr

/-- The method `Owner.get_all_tasks`: all tasks across all pets, in pet
order and task order within each pet. -/
def Owner.get_all_tasks (o : Owner) : List Task :=
  (o.pets.map Pet.tasks).flatten

/-- The method `Owner.calculate_total_task_time`. -/
def Owner.calculate_total_task_time (o : Owner) : Int :=
  (o.get_all_tasks.map Task.duration_minutes).sum

/-- The `ScheduledTask` dataclass.  `scheduled_time` is a wall-clock time,
modelled as minutes after midnight. -/
structure ScheduledTask where
  task : Task
  scheduled_time : Int
  order_index : Nat
  reasoning : String := ""
deriving DecidableEq, Repr

/-- The method `ScheduledTask.get_end_time`: start plus duration as a
wall-clock time; Python's `datetime` arithmetic wraps modulo 24 h. -/
def ScheduledTask.get_end_time (st : ScheduledTask) : Int :=
  (st.scheduled_time + st.task.duration_minutes) % 1440

/-- The method `ScheduledTask.conflicts_with`:
`not (self.end <= other.start or other.end <= self.start)`. -/
def ScheduledTask.conflicts_with (a b : ScheduledTask) : Bool :=
  !(decide (a.get_end_time ≤ b.scheduled_time) ||
    decide (b.get_end_time ≤ a.scheduled_time))

/-- The `Schedule` dataclass, with its final (post-`calculate_*`) field
values. -/
structure Schedule where
  date : Nat
  scheduled_tasks : List ScheduledTask := []
  unscheduled_tasks : List Task := []
  total_time_minutes : Int := 0
  utilization_percentage : ℚ := 0
deriving DecidableEq, Repr

/-- The body of `Schedule.calculate_total_time`: sum of scheduled durations. -/
def calcTotalTime (l : List ScheduledTask) : Int :=
  (l.map (fun st => st.task.duration_minutes)).sum

/-- Rounding to two decimal places, modelling Python's `round(x, 2)`. -/
def roundTo2 (q : ℚ) : ℚ := (round (q * 100) : ℤ) / 100

/-- The body of `Schedule.calculate_utilization`: zero when `available_time`
is zero, otherwise `total / available * 100` rounded to two decimals. -/
def calcUtilization (total available : Int) : ℚ :=
  if available = 0 then 0
  else roundTo2 ((total : ℚ) / (available : ℚ) * 100)

/-- The nested pairwise loop of `Schedule.validate`: true iff no earlier
scheduled task conflicts with a later one. -/
def validateList : List ScheduledTask → Bool
  | [] => true
  | a :: rest => rest.all (fun b => !(a.conflicts_with b)) && validateList rest

/-- The method `Schedule.validate`. -/
def Schedule.validate (s : Schedule) : Bool :=
  validateList s.scheduled_tasks

/-- The score used by the greedy scheduler
(`Scheduler._calculate_task_score`): the raw priority ordinal.  (The Python
method returns it as a float; the value is always the integer ordinal.) -/
def taskScore (t : Task) : Int := t.get_priority_score

/-- One step of the best-task scan in
`PriorityGreedyScheduler._select_next_task`: update `(best_task, best_score)`
when the score is strictly larger. -/
def selectStep (acc : Option Task × Int) (t : Task) : Option Task × Int :=
  if taskScore t > acc.2 then (some t, taskScore t) else acc

/-- The method `PriorityGreedyScheduler._select_next_task`: scan the pool
with `best_task = None`, `best_score = -1`, keeping the first strict
maximum. -/
def selectNextTask (pool : List Task) : Option Task :=
  (pool.foldl selectStep (none, -1)).1

/-- The method `PriorityGreedyScheduler._can_fit_task`. -/
def canFitTask (t : Task) (remaining : Int) : Bool :=
  decide (t.duration_minutes ≤ remaining)

/-- Priority-tier clause of `_generate_reasoning`. -/
def priorityClause (t : Task) : String :=
  match t.priority with
  | .critical => "CRITICAL priority - must be completed"
  | .high => "HIGH priority task"
  | .medium => "MEDIUM priority task"
  | .low => "LOW priority task"

/-- Category clause of `_generate_reasoning` (none for grooming or
enrichment). -/
def categoryClauses (t : Task) : List String :=
  match t.category with
  | .medication => ["medication should not be delayed"]
  | .feeding => ["feeding is essential care"]
  | .walk => ["exercise is important for pet health"]
  | _ => []

/-- Python's `sep.join(parts)`. -/
def joinSep (sep : String) : List String → String
  | [] => ""
  | [a] => a
  | a :: b :: rest => a ++ sep ++ joinSep sep (b :: rest)

/-- The method `PriorityGreedyScheduler._generate_reasoning`: priority
clause, optional category clause, and — when the alternatives list has more
than one entry — a clause naming up to two of the non-selected candidates'
priority tiers; all joined with a period separator and terminated by a
period. -/
def genReasoning (t : Task) (alternatives : List Task) : String :=
  let reasons : List String :=
    [priorityClause t] ++ categoryClauses t ++
      (if alternatives.length > 1 then
        let others := ((alternatives.drop 1).take 2).map (fun a => a.priority.pyName)
        if others ≠ [] then
          ["chosen over " ++ joinSep ", " others ++ " priority tasks"]
        else []
      else [])
  joinSep ". " reasons ++ "."

/-- Stable insertion into a descending-by-score list: the new element goes
in front of the first element whose score does not exceed it. -/
def insertDesc (t : Task) : List Task → List Task
  | [] => [t]
  | u :: us =>
    if taskScore u ≤ taskScore t then t :: u :: us
    else u :: insertDesc t us

/-- Python's `sorted(tasks, key=lambda t: t.get_priority_score(),
reverse=True)`: a stable descending sort by priority score.  Python's sort
is stable, and a stable sort by a fixed key is extensionally unique, so any
stable descending insertion sort produces the identical list. -/
def sortTasksDesc (l : List Task) : List Task :=
  l.foldr insertDesc []

/-- The greedy `while` loop of `PriorityGreedyScheduler.generate_schedule`,
parametrised by the reasoning generator (the source always uses
`_generate_reasoning`; the parameter makes it provable that the reasoning
string never influences the scheduling decisions).  Returns the scheduled
tasks in assignment order, and the unscheduled tasks (tasks dropped because
they did not fit, in processing order, followed by the pool left over when
the loop exits, mirroring `unscheduled_tasks.append(...)` during the loop
and `unscheduled_tasks.extend(available_tasks)` after it).  Each iteration
removes one task from the pool, so `pool.length` fuel is enough. -/
def greedyLoop (reason : Task → List Task → String) :
    Nat → Int → List Task → Int → Nat → List ScheduledTask × List Task
  | 0, _, pool, _, _ => ([], pool)
  | fuel + 1, remaining, pool, cur, idx =>
    if 0 < remaining ∧ pool ≠ [] then
      match selectNextTask pool with
      | none => ([], pool)
      | some t =>
        if t.duration_minutes ≤ remaining then
          let st : ScheduledTask :=
            { task := t, scheduled_time := cur, order_index := idx
              reasoning := reason t (pool.take 3) }
          let r := greedyLoop reason fuel (remaining - t.duration_minutes)
              (pool.erase t) ((cur + t.duration_minutes) % 1440) (idx + 1)
          (st :: r.1, r.2)
        else
          let r := greedyLoop reason fuel remaining (pool.erase t) cur idx
          (r.1, t :: r.2)
    else ([], pool)

/-- The method `PriorityGreedyScheduler.generate_schedule`, parametrised by
the reasoning generator.  Mirrors the source: sort all tasks by descending
priority; return an empty schedule when there are no tasks; when the budget
is non-positive move every task to `unscheduled_tasks` and finalize; else
run the greedy loop from 06:00 (= 360 minutes) and finalize with
`calculate_total_time` and `calculate_utilization`. -/
def generateScheduleWith (reason : Task → List Task → String)
    (owner : Owner) (d : Nat) : Schedule :=
  let available_tasks := sortTasksDesc owner.get_all_tasks
  if available_tasks.isEmpty then
    { date := d }
  else if owner.available_time_minutes ≤ 0 then
    let total := calcTotalTime []
    { date := d
      scheduled_tasks := []
      unscheduled_tasks := available_tasks
      total_time_minutes := total
      utilization_percentage := calcUtilization total owner.available_time_minutes }
  else
    let r := greedyLoop reason available_tasks.length
        owner.available_time_minutes available_tasks 360 0
    let total := calcTotalTime r.1
    { date := d
      scheduled_tasks := r.1
      unscheduled_tasks := r.2
      total_time_minutes := total
      utilization_percentage := calcUtilization total owner.available_time_minutes }

/-- The method `PriorityGreedyScheduler.generate_schedule` itself, with the
source's reasoning generator. -/
def generateSchedule (owner : Owner) (d : Nat) : Schedule :=
  generateScheduleWith genReasoning owner d

/-! ### Basic lemmas about the selection scan -/

theorem taskScore_pos (t : Task) : 1 ≤ taskScore t := by
  cases h : t.priority <;>
    simp [taskScore, Task.get_priority_score, Priority.value, h]

theorem selectFold_mem (l : List Task) :
    ∀ (acc : Option Task × Int) (t : Task),
      (l.foldl selectStep acc).1 = some t → acc.1 = some t ∨ t ∈ l := by
  induction l with
  | nil => intro acc t h; exact Or.inl h
  | cons u us ih =>
    intro acc t h
    rcases ih (selectStep acc u) t h with h' | h'
    · by_cases hs : taskScore u > acc.2
      · right
        have hstep : selectStep acc u = (some u, taskScore u) := by
          simp [selectStep, hs]
        rw [hstep] at h'
        have hut : t = u := by
          have := h'
          simp at this
          exact this.symm
        exact List.mem_cons.mpr (Or.inl hut)
      · have hstep : selectStep acc u = acc := by simp [selectStep, hs]
        rw [hstep] at h'
        exact Or.inl h'
    · exact Or.inr (List.mem_cons_of_mem _ h')

theorem selectNextTask_mem {pool : List Task} {t : Task}
    (h : selectNextTask pool = some t) : t ∈ pool := by
  rcases selectFold_mem pool (none, -1) t h with h' | h'
  · simp at h'
  · exact h'

theorem selectFold_const (l : List Task) (b : Task) (s : Int)
    (h : ∀ u ∈ l, taskScore u ≤ s) :
    l.foldl selectStep (some b, s) = (some b, s) := by
  induction l with
  | nil => rfl
  | cons u us ih =>
    have hu : ¬ taskScore u > s := by
      simp only [not_lt]
      exact h u (List.mem_cons_self u us)
    simp only [List.foldl_cons, selectStep, if_neg hu]
    exact ih (fun v hv => h v (List.mem_cons_of_mem _ hv))

theorem selectNextTask_sorted (t : Task) (ts : List Task)
    (h : (t :: ts).Pairwise (fun a b => taskScore b ≤ taskScore a)) :
    selectNextTask (t :: ts) = some t := by
  have h1 : taskScore t > -1 := lt_of_lt_of_le (by norm_num) (taskScore_pos t)
  have hstep : selectStep (none, -1) t = (some t, taskScore t) := by
    simp [selectStep, h1]
  have hall : ∀ u ∈ ts, taskScore u ≤ taskScore t :=
    (List.pairwise_cons.mp h).1
  simp only [selectNextTask, List.foldl_cons, hstep]
  rw [selectFold_const ts t (taskScore t) hall]

/-! ### Lemmas about the stable descending sort -/

theorem insertDesc_perm (t : Task) (l : List Task) :
    (insertDesc t l).Perm (t :: l) := by
  induction l with
  | nil => simp [insertDesc]
  | cons u us ih =>
    by_cases h : taskScore u ≤ taskScore t
    · simp [insertDesc, h]
    · simp only [insertDesc, if_neg h]
      exact (ih.cons u).trans (List.Perm.swap t u us)

theorem sortTasksDesc_perm (l : List Task) : (sortTasksDesc l).Perm l := by
  induction l with
  | nil => simp [sortTasksDesc]
  | cons t ts ih =>
    have : sortTasksDesc (t :: ts) = insertDesc t (sortTasksDesc ts) := rfl
    rw [this]
    exact (insertDesc_perm t (sortTasksDesc ts)).trans (ih.cons t)

theorem insertDesc_pairwise (t : Task) (l : List Task)
    (h : l.Pairwise (fun a b => taskScore b ≤ taskScore a)) :
    (insertDesc t l).Pairwise (fun a b => taskScore b ≤ taskScore a) := by
  induction l with
  | nil => simp [insertDesc]
  | cons u us ih =>
    rcases List.pairwise_cons.mp h with ⟨hu, hus⟩
    by_cases hc : taskScore u ≤ taskScore t
    · simp only [insertDesc, if_pos hc]
      refine List.pairwise_cons.mpr ⟨?_, h⟩
      intro b hb
      rcases List.mem_cons.mp hb with rfl | hb
      · exact hc
      · exact le_trans (hu b hb) hc
    · simp only [insertDesc, if_neg hc]
      refine List.pairwise_cons.mpr ⟨?_, ih hus⟩
      intro b hb
      have := (insertDesc_perm t us).mem_iff.mp hb
      rcases List.mem_cons.mp this with rfl | hb'
      · exact le_of_lt (lt_of_not_le hc)
      · exact hu b hb'

theorem sortTasksDesc_pairwise (l : List Task) :
    (sortTasksDesc l).Pairwise (fun a b => taskScore b ≤ taskScore a) := by
  induction l with
  | nil => simp [sortTasksDesc]
  | cons t ts ih => exact insertDesc_pairwise t (sortTasksDesc ts) ih

theorem filter_insertDesc (sc : Int) (t : Task) (l : List Task) :
    (insertDesc t l).filter (fun x => decide (taskScore x = sc)) =
      (t :: l).filter (fun x => decide (taskScore x = sc)) := by
  induction l with
  | nil => simp [insertDesc]
  | cons u us ih =>
    by_cases hc : taskScore u ≤ taskScore t
    · simp [insertDesc, hc]
    · have hut : taskScore t < taskScore u := lt_of_not_le hc
      simp only [insertDesc, if_neg hc]
      rw [List.filter_cons (x := u), ih]
      by_cases hu : taskScore u = sc
      · have ht : ¬ taskScore t = sc := fun h =>
          (ne_of_lt hut) (h.trans hu.symm)
        simp [List.filter_cons, hu, ht]
      · simp [List.filter_cons, hu]

theorem filter_sortTasksDesc (sc : Int) (l : List Task) :
    (sortTasksDesc l).filter (fun x => decide (taskScore x = sc)) =
      l.filter (fun x => decide (taskScore x = sc)) := by
  induction l with
  | nil => rfl
  | cons t ts ih =>
    have : sortTasksDesc (t :: ts) = insertDesc t (sortTasksDesc ts) := rfl
    rw [this, filter_insertDesc]
    simp only [List.filter_cons]
    rw [ih]

/-! ### Lemmas about the greedy loop -/

theorem greedyLoop_of_not_pos (reason : Task → List Task → String)
    (fuel : Nat) (rem : Int) (pool : List Task) (cur : Int) (idx : Nat)
    (h : ¬ 0 < rem) :
    greedyLoop reason fuel rem pool cur idx = ([], pool) := by
  cases fuel with
  | zero => rfl
  | succ n =>
    have : ¬ (0 < rem ∧ pool ≠ []) := fun hc => h hc.1
    simp [greedyLoop, this]

theorem greedyLoop_perm (reason : Task → List Task → String) :
    ∀ (fuel : Nat) (rem : Int) (pool : List Task) (cur : Int) (idx : Nat),
      (((greedyLoop reason fuel rem pool cur idx).1.map ScheduledTask.task) ++
        (greedyLoop reason fuel rem pool cur idx).2).Perm pool := by
  intro fuel
  induction fuel with
  | zero => intro rem pool cur idx; simp [greedyLoop]
  | succ n ih =>
    intro rem pool cur idx
    by_cases hc : 0 < rem ∧ pool ≠ []
    · simp only [greedyLoop, if_pos hc]
      cases hsel : selectNextTask pool with
      | none => simp
      | some t =>
        have hmem : t ∈ pool := selectNextTask_mem hsel
        by_cases hfit : t.duration_minutes ≤ rem
        · simp only [if_pos hfit, List.map_cons, List.cons_append]
          exact ((ih _ _ _ _).cons t).trans (List.perm_cons_erase hmem).symm
        · simp only [if_neg hfit]
          exact (List.perm_middle.trans ((ih _ _ _ _).cons t)).trans
            (List.perm_cons_erase hmem).symm
    · simp [greedyLoop, if_neg hc]

theorem greedyLoop_sublist (reason : Task → List Task → String) :
    ∀ (fuel : Nat) (rem : Int) (pool : List Task) (cur : Int) (idx : Nat),
      pool.Pairwise (fun a b => taskScore b ≤ taskScore a) →
      ((greedyLoop reason fuel rem pool cur idx).1.map ScheduledTask.task).Sublist
        pool := by
  intro fuel
  induction fuel with
  | zero => intro rem pool cur idx _; simp [greedyLoop]
  | succ n ih =>
    intro rem pool cur idx hsorted
    by_cases hc : 0 < rem ∧ pool ≠ []
    · cases pool with
      | nil => exact absurd rfl hc.2
      | cons t ts =>
        have hsel : selectNextTask (t :: ts) = some t :=
          selectNextTask_sorted t ts hsorted
        have herase : (t :: ts).erase t = ts := by
          simp [List.erase_cons_head]
        have hts : ts.Pairwise (fun a b => taskScore b ≤ taskScore a) :=
          (List.pairwise_cons.mp hsorted).2
        simp only [greedyLoop, if_pos hc, hsel]
        by_cases hfit : t.duration_minutes ≤ rem
        · simp only [if_pos hfit, List.map_cons, herase]
          exact (ih _ _ _ _ hts).cons₂ t
        · simp only [if_neg hfit, herase]
          exact (ih _ _ _ _ hts).cons t
    · simp [greedyLoop, if_neg hc]

theorem greedyLoop_total_bounds (reason : Task → List Task → String) :
    ∀ (fuel : Nat) (rem : Int) (pool : List Task) (cur : Int) (idx : Nat),
      0 ≤ rem → (∀ t ∈ pool, 0 ≤ t.duration_minutes) →
      0 ≤ calcTotalTime (greedyLoop reason fuel rem pool cur idx).1 ∧
      calcTotalTime (greedyLoop reason fuel rem pool cur idx).1 ≤ rem := by
  intro fuel
  induction fuel with
  | zero => intro rem pool cur idx hrem _; simp [greedyLoop, calcTotalTime, hrem]
  | succ n ih =>
    intro rem pool cur idx hrem hdur
    by_cases hc : 0 < rem ∧ pool ≠ []
    · simp only [greedyLoop, if_pos hc]
      cases hsel : selectNextTask pool with
      | none => simp [calcTotalTime, hrem]
      | some t =>
        have hmem : t ∈ pool := selectNextTask_mem hsel
        have hdur' : ∀ u ∈ pool.erase t, 0 ≤ u.duration_minutes :=
          fun u hu => hdur u (List.mem_of_mem_erase hu)
        by_cases hfit : t.duration_minutes ≤ rem
        · simp only [if_pos hfit]
          have hd : 0 ≤ t.duration_minutes := hdur t hmem
          have hih := ih (rem - t.duration_minutes) (pool.erase t)
            ((cur + t.duration_minutes) % 1440) (idx + 1)
            (by omega) hdur'
          simp only [calcTotalTime, List.map_cons, List.sum_cons] at hih ⊢
          omega
        · simp only [if_neg hfit]
          exact ih rem (pool.erase t) cur idx hrem hdur'
    · simp [greedyLoop, if_neg hc, calcTotalTime, hrem]

theorem greedyLoop_time_bounds (reason : Task → List Task → String) :
    ∀ (fuel : Nat) (rem : Int) (pool : List Task) (cur : Int) (idx : Nat),
      0 ≤ cur → cur + rem ≤ 1440 → (∀ t ∈ pool, 0 < t.duration_minutes) →
      ((greedyLoop reason fuel rem pool cur idx).1.Pairwise
        (fun a b => a.scheduled_time + a.task.duration_minutes ≤ b.scheduled_time)) ∧
      (∀ st ∈ (greedyLoop reason fuel rem pool cur idx).1,
        cur ≤ st.scheduled_time ∧
        st.scheduled_time + st.task.duration_minutes ≤ cur + rem ∧
        0 < st.task.duration_minutes) := by
  intro fuel
  induction fuel with
  | zero => intro rem pool cur idx _ _ _; simp [greedyLoop]
  | succ n ih =>
    intro rem pool cur idx hcur hbound hdur
    by_cases hc : 0 < rem ∧ pool ≠ []
    · simp only [greedyLoop, if_pos hc]
      cases hsel : selectNextTask pool with
      | none => simp
      | some t =>
        have hmem : t ∈ pool := selectNextTask_mem hsel
        have hd : 0 < t.duration_minutes := hdur t hmem
        have hdur' : ∀ u ∈ pool.erase t, 0 < u.duration_minutes :=
          fun u hu => hdur u (List.mem_of_mem_erase hu)
        by_cases hfit : t.duration_minutes ≤ rem
        · simp only [if_pos hfit]
          have hcd : cur + t.duration_minutes ≤ 1440 := by omega
          rcases lt_or_eq_of_le hcd with hlt | heq
          · have hmod : (cur + t.duration_minutes) % 1440 =
                cur + t.duration_minutes :=
              Int.emod_eq_of_lt (by omega) hlt
            rw [hmod]
            have hih := ih (rem - t.duration_minutes) (pool.erase t)
              (cur + t.duration_minutes) (idx + 1) (by omega) (by omega) hdur'
            constructor
            · refine List.pairwise_cons.mpr ⟨?_, hih.1⟩
              intro b hb
              exact (hih.2 b hb).1
            · intro st hst
              rcases List.mem_cons.mp hst with rfl | hst'
              · exact ⟨le_refl _, show cur + t.duration_minutes ≤ cur + rem by
                  omega, hd⟩
              · have hmem' := hih.2 st hst'
                exact ⟨by omega, by omega, hmem'.2.2⟩
          · have hrem' : ¬ 0 < rem - t.duration_minutes := by omega
            rw [greedyLoop_of_not_pos reason n _ _ _ _ hrem']
            refine ⟨by simp, ?_⟩
            intro st hst
            rcases List.mem_cons.mp hst with rfl | hst'
            · exact ⟨le_refl _, show cur + t.duration_minutes ≤ cur + rem by
                omega, hd⟩
            · simp at hst'
        · simp only [if_neg hfit]
          exact ih rem (pool.erase t) cur idx hcur hbound hdur'
    · simp [greedyLoop, if_neg hc]

theorem greedyLoop_reason_irrelevant (r₁ r₂ : Task → List Task → String) :
    ∀ (fuel : Nat) (rem : Int) (pool : List Task) (cur : Int) (idx : Nat),
      ((greedyLoop r₁ fuel rem pool cur idx).1.map
          (fun st => (st.task, st.scheduled_time, st.order_index)) =
        (greedyLoop r₂ fuel rem pool cur idx).1.map
          (fun st => (st.task, st.scheduled_time, st.order_index))) ∧
      (greedyLoop r₁ fuel rem pool cur idx).2 =
        (greedyLoop r₂ fuel rem pool cur idx).2 := by
  intro fuel
  induction fuel with
  | zero => intro rem pool cur idx; simp [greedyLoop]
  | succ n ih =>
    intro rem pool cur idx
    by_cases hc : 0 < rem ∧ pool ≠ []
    · simp only [greedyLoop, if_pos hc]
      cases hsel : selectNextTask pool with
      | none => simp
      | some t =>
        by_cases hfit : t.duration_minutes ≤ rem
        · simp only [if_pos hfit, List.map_cons]
          have := ih (rem - t.duration_minutes) (pool.erase t)
            ((cur + t.duration_minutes) % 1440) (idx + 1)
          exact ⟨by rw [this.1], this.2⟩
        · simp only [if_neg hfit]
          have := ih rem (pool.erase t) cur idx
          exact ⟨this.1, by rw [this.2]⟩
    · simp [greedyLoop, if_neg hc]

/-! ### From interval bounds to a valid schedule -/

theorem validateList_of_bounds :
    ∀ (l : List ScheduledTask),
      l.Pairwise (fun a b =>
        a.scheduled_time + a.task.duration_minutes ≤ b.scheduled_time) →
      (∀ st ∈ l, 0 ≤ st.scheduled_time ∧
        st.scheduled_time + st.task.duration_minutes ≤ 1440 ∧
        0 < st.task.duration_minutes) →
      validateList l = true := by
  intro l
  induction l with
  | nil => intro _ _; rfl
  | cons a rest ih =>
    intro hpw hall
    rcases List.pairwise_cons.mp hpw with ⟨ha, hrest⟩
    have hb := hall a (List.mem_cons_self a rest)
    simp only [validateList, Bool.and_eq_true, List.all_eq_true]
    constructor
    · intro b hb'
      have hab : a.scheduled_time + a.task.duration_minutes ≤ b.scheduled_time :=
        ha b hb'
      have hbb := hall b (List.mem_cons_of_mem a hb')
      have hend : a.get_end_time ≤ b.scheduled_time := by
        unfold ScheduledTask.get_end_time
        rcases lt_or_eq_of_le hb.2.1 with hlt | heq
        · rw [Int.emod_eq_of_lt (by omega) hlt]
          exact hab
        · rw [heq]
          simp only [Int.emod_self]
          exact hbb.1
      simp only [ScheduledTask.conflicts_with, Bool.not_eq_eq_eq_not, Bool.not_true,
        Bool.or_eq_true, decide_eq_true_eq]
      simp [hend]
    · exact ih hrest (fun st hst => hall st (List.mem_cons_of_mem a hst))

/-! ### Branch characterizations of `generate_schedule` -/

theorem generateScheduleWith_empty (reason : Task → List Task → String)
    (o : Owner) (d : Nat) (he : o.get_all_tasks = []) :
    generateScheduleWith reason o d = { date := d } := by
  have hsort : sortTasksDesc o.get_all_tasks = [] := by
    rw [he]; rfl
  simp [generateScheduleWith, hsort]

theorem generateScheduleWith_nonpos (reason : Task → List Task → String)
    (o : Owner) (d : Nat) (hne : o.get_all_tasks ≠ [])
    (hb : o.available_time_minutes ≤ 0) :
    generateScheduleWith reason o d =
      { date := d
        scheduled_tasks := []
        unscheduled_tasks := sortTasksDesc o.get_all_tasks
        total_time_minutes := calcTotalTime []
        utilization_percentage :=
          calcUtilization (calcTotalTime []) o.available_time_minutes } := by
  have hsort : sortTasksDesc o.get_all_tasks ≠ [] := by
    intro h
    have p := sortTasksDesc_perm o.get_all_tasks
    rw [h] at p
    exact hne p.symm.eq_nil
  have hemp : (sortTasksDesc o.get_all_tasks).isEmpty = false := by
    simpa [List.isEmpty_iff] using hsort
  simp [generateScheduleWith, hemp, hb]

theorem generateScheduleWith_pos (reason : Task → List Task → String)
    (o : Owner) (d : Nat) (hne : o.get_all_tasks ≠ [])
    (hb : ¬ o.available_time_minutes ≤ 0) :
    generateScheduleWith reason o d =
      { date := d
        scheduled_tasks :=
          (greedyLoop reason (sortTasksDesc o.get_all_tasks).length
            o.available_time_minutes (sortTasksDesc o.get_all_tasks) 360 0).1
        unscheduled_tasks :=
          (greedyLoop reason (sortTasksDesc o.get_all_tasks).length
            o.available_time_minutes (sortTasksDesc o.get_all_tasks) 360 0).2
        total_time_minutes :=
          calcTotalTime ((greedyLoop reason (sortTasksDesc o.get_all_tasks).length
            o.available_time_minutes (sortTasksDesc o.get_all_tasks) 360 0).1)
        utilization_percentage :=
          calcUtilization
            (calcTotalTime ((greedyLoop reason (sortTasksDesc o.get_all_tasks).length
              o.available_time_minutes (sortTasksDesc o.get_all_tasks) 360 0).1))
            o.available_time_minutes } := by
  have hsort : sortTasksDesc o.get_all_tasks ≠ [] := by
    intro h
    have p := sortTasksDesc_perm o.get_all_tasks
    rw [h] at p
    exact hne p.symm.eq_nil
  have hemp : (sortTasksDesc o.get_all_tasks).isEmpty = false := by
    simpa [List.isEmpty_iff] using hsort
  simp [generateScheduleWith, hemp, hb]

/-! ### Concrete inputs used by scenarios, witnesses and counterexamples -/

/-- Scenario task: Feed, 10 minutes, CRITICAL, feeding. -/
def taskFeed : Task :=
  { title := "Feed", duration_minutes := 10, priority := .critical, category := .feeding }

/-- Scenario task: Walk, 30 minutes, HIGH, walk. -/
def taskWalk : Task :=
  { title := "Walk", duration_minutes := 30, priority := .high, category := .walk }

/-- Scenario task: Groom, 45 minutes, LOW, grooming. -/
def taskGroom : Task :=
  { title := "Groom", duration_minutes := 45, priority := .low, category := .grooming }

/-- Scenario owner with a 40-minute budget and the three tasks above. -/
def ownerBudget40 : Owner :=
  { name := "Alex"
    available_time_minutes := 40
    pets := [{ name := "Rex", species := "dog", tasks := [taskFeed, taskWalk, taskGroom] }] }

/-- Tasks whose combined duration pushes the schedule cursor past midnight. -/
def taskWrapA : Task :=
  { title := "A", duration_minutes := 60, priority := .low, category := .grooming }

/-- Middle task of the midnight-wrap example: 23.5 hours long. -/
def taskWrapB : Task :=
  { title := "B", duration_minutes := 1410, priority := .low, category := .grooming }

/-- Last task of the midnight-wrap example. -/
def taskWrapC : Task :=
  { title := "C", duration_minutes := 60, priority := .low, category := .grooming }

/-- Owner whose budget (1530 minutes) lets the schedule run past midnight. -/
def ownerWrap : Owner :=
  { name := "Night"
    available_time_minutes := 1530
    pets := [{ name := "Owl", species := "owl", tasks := [taskWrapA, taskWrapB, taskWrapC] }] }

/-- Owner with a small budget and two ordinary tasks. -/
def ownerSmall : Owner :=
  { name := "Sam"
    available_time_minutes := 100
    pets := [{ name := "Cat", species := "cat"
               tasks := [{ title := "Feed cat", duration_minutes := 30
                           priority := .high, category := .feeding },
                         { title := "Brush cat", duration_minutes := 50
                           priority := .low, category := .grooming }] }] }

/-- A scheduled task whose interval crosses midnight: starts 23:20, 100 min. -/
def stWrapLate : ScheduledTask :=
  { task := { title := "late", duration_minutes := 100, priority := .low, category := .walk }
    scheduled_time := 1400
    order_index := 0 }

/-- A scheduled task inside the late interval: starts 23:30, 10 min. -/
def stWrapInner : ScheduledTask :=
  { task := { title := "inner", duration_minutes := 10, priority := .low, category := .walk }
    scheduled_time := 1410
    order_index := 1 }

/-- Two genuinely overlapping scheduled tasks within the day. -/
def stDayA : ScheduledTask :=
  { task := { title := "dayA", duration_minutes := 30, priority := .low, category := .walk }
    scheduled_time := 360
    order_index := 0 }

/-- Overlaps `stDayA`: starts 06:10 while `stDayA` runs until 06:30. -/
def stDayB : ScheduledTask :=
  { task := { title := "dayB", duration_minutes := 30, priority := .low, category := .walk }
    scheduled_time := 370
    order_index := 1 }

/-! ### Claim theorems -/

/-- C10. For every Owner and date, the Schedule returned by
`generate_schedule` partitions the owner's aggregated tasks: the multiset of
tasks referenced by `scheduled_tasks` together with `unscheduled_tasks` is a
permutation of `Owner.get_all_tasks`, so each aggregated task occurs in
exactly one of the two lists exactly once. -/
theorem schedule_partitions_tasks (o : Owner) (d : Nat) :
    (((generateSchedule o d).scheduled_tasks.map ScheduledTask.task) ++
      (generateSchedule o d).unscheduled_tasks).Perm o.get_all_tasks := by
  by_cases he : o.get_all_tasks = []
  · rw [generateSchedule, generateScheduleWith_empty _ _ _ he, he]
    simp
  · by_cases hb : o.available_time_minutes ≤ 0
    · rw [generateSchedule, generateScheduleWith_nonpos _ _ _ he hb]
      simpa using sortTasksDesc_perm o.get_all_tasks
    · rw [generateSchedule, generateScheduleWith_pos _ _ _ he hb]
      exact (greedyLoop_perm _ _ _ _ _ _).trans (sortTasksDesc_perm _)

/-- C3. In every generated Schedule the priority ordinals of
`scheduled_tasks`, in assignment order, are non-increasing; and for every
score value, the equal-priority scheduled tasks form a sublist of the
equal-priority tasks of the owner's aggregation in its original order (the
stable tie-breaking). -/
theorem scheduled_tasks_priority_sorted (o : Owner) (d : Nat) :
    ((generateSchedule o d).scheduled_tasks.map
      (fun st => taskScore st.task)).Pairwise (fun a b => b ≤ a) ∧
    ∀ sc : Int,
      (((generateSchedule o d).scheduled_tasks.map ScheduledTask.task).filter
        (fun t => decide (taskScore t = sc))).Sublist
        (o.get_all_tasks.filter (fun t => decide (taskScore t = sc))) := by
  by_cases he : o.get_all_tasks = []
  · rw [generateSchedule, generateScheduleWith_empty _ _ _ he, he]
    exact ⟨by simp, fun sc => by simp⟩
  · by_cases hb : o.available_time_minutes ≤ 0
    · rw [generateSchedule, generateScheduleWith_nonpos _ _ _ he hb]
      exact ⟨by simp, fun sc => by simp⟩
    · rw [generateSchedule, generateScheduleWith_pos _ _ _ he hb]
      have hsub := greedyLoop_sublist genReasoning
        (sortTasksDesc o.get_all_tasks).length o.available_time_minutes
        (sortTasksDesc o.get_all_tasks) 360 0 (sortTasksDesc_pairwise _)
      constructor
      · have hpw := (sortTasksDesc_pairwise o.get_all_tasks).sublist hsub
        rw [List.pairwise_map] at hpw
        rw [List.pairwise_map]
        exact hpw
      · intro sc
        have := hsub.filter (fun t => decide (taskScore t = sc))
        rwa [filter_sortTasksDesc] at this

/-- C1 (amended). For every Owner whose tasks all have positive duration and
whose available budget is at most 1080 minutes — so that, starting at 06:00,
the schedule can never run past midnight and wall-clock times never wrap —
the Schedule returned by `generate_schedule` satisfies `validate() = true`:
no two scheduled tasks have overlapping half-open intervals. -/
theorem generated_schedule_validates (o : Owner) (d : Nat)
    (hdur : ∀ t ∈ o.get_all_tasks, 0 < t.duration_minutes)
    (hb : o.available_time_minutes ≤ 1080) :
    (generateSchedule o d).validate = true := by
  by_cases he : o.get_all_tasks = []
  · rw [generateSchedule, generateScheduleWith_empty _ _ _ he]; rfl
  · by_cases hb0 : o.available_time_minutes ≤ 0
    · rw [generateSchedule, generateScheduleWith_nonpos _ _ _ he hb0]; rfl
    · rw [generateSchedule, generateScheduleWith_pos _ _ _ he hb0]
      have hdur' : ∀ t ∈ sortTasksDesc o.get_all_tasks, 0 < t.duration_minutes :=
        fun t ht => hdur t ((sortTasksDesc_perm _).mem_iff.mp ht)
      have htb := greedyLoop_time_bounds genReasoning
        (sortTasksDesc o.get_all_tasks).length o.available_time_minutes
        (sortTasksDesc o.get_all_tasks) 360 0 (by norm_num) (by omega) hdur'
      exact validateList_of_bounds _ htb.1 (fun st hst => by
        have h := htb.2 st hst
        exact ⟨by omega, by omega, h.2.2⟩)

/-- C1 counterexample. With a budget of 1530 minutes and tasks of 60, 1410
and 60 minutes, the greedy cursor wraps past midnight: the third task is
placed at 06:30 wall-clock while the second still occupies 07:00-06:30 of
the next day, and `validate()` returns false on the generated schedule. -/
theorem generated_schedule_validate_counterexample :
    (generateSchedule ownerWrap 0).validate = false := by decide

/-- C1 witness. -/
theorem generated_schedule_validates_witness :
    (generateSchedule ownerSmall 0).validate = true :=
  generated_schedule_validates ownerSmall 0 (by decide) (by decide)

/-- C2 (amended). For scheduled tasks whose minute intervals lie within a
single day (`0 ≤ start + duration < 1440`, so the wall-clock end time does
not wrap past midnight), `conflicts_with` returns true exactly when the
half-open intervals `[start, start + duration)` overlap; consequently
back-to-back tasks (end of one equal to start of the other) never
conflict. -/
theorem conflicts_with_iff_overlap (a b : ScheduledTask)
    (ha1 : 0 ≤ a.scheduled_time + a.task.duration_minutes)
    (hb1 : 0 ≤ b.scheduled_time + b.task.duration_minutes)
    (ha2 : a.scheduled_time + a.task.duration_minutes < 1440)
    (hb2 : b.scheduled_time + b.task.duration_minutes < 1440) :
    (a.conflicts_with b = true ↔
      (b.scheduled_time < a.scheduled_time + a.task.duration_minutes ∧
       a.scheduled_time < b.scheduled_time + b.task.duration_minutes)) ∧
    (a.scheduled_time + a.task.duration_minutes = b.scheduled_time →
      a.conflicts_with b = false) := by
  have ea : a.get_end_time = a.scheduled_time + a.task.duration_minutes :=
    Int.emod_eq_of_lt ha1 ha2
  have eb : b.get_end_time = b.scheduled_time + b.task.duration_minutes :=
    Int.emod_eq_of_lt hb1 hb2
  constructor
  · simp only [ScheduledTask.conflicts_with, ea, eb, Bool.not_eq_eq_eq_not,
      Bool.not_true, Bool.or_eq_false_iff, decide_eq_false_iff_not, not_le]
  · intro h
    simp only [ScheduledTask.conflicts_with, ea, h]
    simp

/-- C2 counterexample. The interval of `stWrapLate` is `[1400, 1500)`
(23:20 for 100 minutes) and that of `stWrapInner` is `[1410, 1420)`, which
it contains — yet `conflicts_with` reports no conflict, because the wrapped
end time of `stWrapLate` is 60 (01:00 next day), which compares below the
other task's start. -/
theorem conflicts_with_overlap_counterexample :
    stWrapLate.conflicts_with stWrapInner = false ∧
    stWrapInner.scheduled_time <
      stWrapLate.scheduled_time + stWrapLate.task.duration_minutes ∧
    stWrapLate.scheduled_time <
      stWrapInner.scheduled_time + stWrapInner.task.duration_minutes := by
  decide

/-- C2 witness. -/
theorem conflicts_with_iff_overlap_witness :
    stDayA.conflicts_with stDayB = true :=
  (conflicts_with_iff_overlap stDayA stDayB (by decide) (by decide)
    (by decide) (by decide)).1.mpr ⟨by decide, by decide⟩

/-- C4. When the selected highest-priority candidate does not fit the
remaining budget, the loop moves exactly that task to the unscheduled list
and continues on the rest of the pool with the same cursor, budget and
order index; and on the concrete scenario (budget 40; Feed 10/CRITICAL,
Walk 30/HIGH, Groom 45/LOW) the generated schedule is [Feed at 06:00,
Walk at 06:10], total 40 minutes, utilization exactly 100, with Groom
unscheduled. -/
theorem unfit_task_skipped (fuel : Nat) (rem : Int) (pool : List Task)
    (cur : Int) (idx : Nat) (t : Task)
    (hrem : 0 < rem) (hsel : selectNextTask pool = some t)
    (hfit : ¬ t.duration_minutes ≤ rem) :
    (greedyLoop genReasoning (fuel + 1) rem pool cur idx =
      ((greedyLoop genReasoning fuel rem (pool.erase t) cur idx).1,
        t :: (greedyLoop genReasoning fuel rem (pool.erase t) cur idx).2)) ∧
    ((generateSchedule ownerBudget40 0).scheduled_tasks.map
        (fun st => (st.task.title, st.scheduled_time)) =
      [("Feed", 360), ("Walk", 370)] ∧
     (generateSchedule ownerBudget40 0).total_time_minutes = 40 ∧
     (generateSchedule ownerBudget40 0).utilization_percentage = 100 ∧
     (generateSchedule ownerBudget40 0).unscheduled_tasks.map Task.title =
       ["Groom"]) := by
  have hne : pool ≠ [] := by
    intro h
    rw [h] at hsel
    exact Option.noConfusion hsel
  constructor
  · simp only [greedyLoop, if_pos (And.intro hrem hne), hsel, if_neg hfit]
  · refine ⟨by decide, by decide, ?_, by decide⟩
    have h40 : (generateSchedule ownerBudget40 0).utilization_percentage =
        calcUtilization 40 40 := rfl
    rw [h40]
    norm_num [calcUtilization, roundTo2]

/-- C4 witness. -/
theorem unfit_task_skipped_witness :
    (greedyLoop genReasoning 1 10 [taskGroom] 360 0 =
      ((greedyLoop genReasoning 0 10 ([taskGroom].erase taskGroom) 360 0).1,
        taskGroom ::
          (greedyLoop genReasoning 0 10 ([taskGroom].erase taskGroom) 360 0).2)) ∧
    ((generateSchedule ownerBudget40 0).scheduled_tasks.map
        (fun st => (st.task.title, st.scheduled_time)) =
      [("Feed", 360), ("Walk", 370)] ∧
     (generateSchedule ownerBudget40 0).total_time_minutes = 40 ∧
     (generateSchedule ownerBudget40 0).utilization_percentage = 100 ∧
     (generateSchedule ownerBudget40 0).unscheduled_tasks.map Task.title =
       ["Groom"]) :=
  unfit_task_skipped 0 10 [taskGroom] 360 0 taskGroom (by decide) (by rfl)
    (by decide)

/-- Helper: rounding to two decimals keeps a rational in `[0, 100]`. -/
theorem roundTo2_bounds (q : ℚ) (h0 : 0 ≤ q) (h1 : q ≤ 100) :
    0 ≤ roundTo2 q ∧ roundTo2 q ≤ 100 := by
  have hl : (0 : ℤ) ≤ round (q * 100) := by
    rw [round_eq]
    refine Int.le_floor.mpr ?_
    push_cast
    linarith
  have hu : round (q * 100) ≤ 10000 := by
    rw [round_eq]
    have h2 : ⌊(q * 100 + 1 / 2 : ℚ)⌋ ≤ ⌊(10000 + 1 / 2 : ℚ)⌋ :=
      Int.floor_le_floor (by linarith)
    have h3 : ⌊(10000 + 1 / 2 : ℚ)⌋ = 10000 := by norm_num
    omega
  constructor
  · exact div_nonneg (by exact_mod_cast hl) (by norm_num)
  · rw [roundTo2, div_le_iff₀ (by norm_num : (0:ℚ) < 100)]
    have : ((round (q * 100) : ℤ) : ℚ) ≤ 10000 := by exact_mod_cast hu
    linarith

/-- C5. For every Owner with valid (positive-duration) tasks, the generated
schedule's utilization percentage is 0 when the budget is 0, equals
`total / budget * 100` rounded to two decimals when the budget is nonzero,
and always lies in `[0, 100]`. -/
theorem utilization_formula_and_range (o : Owner) (d : Nat)
    (hdur : ∀ t ∈ o.get_all_tasks, 0 < t.duration_minutes) :
    (o.available_time_minutes = 0 →
      (generateSchedule o d).utilization_percentage = 0) ∧
    (o.available_time_minutes ≠ 0 →
      (generateSchedule o d).utilization_percentage =
        roundTo2 (((generateSchedule o d).total_time_minutes : ℚ) /
          (o.available_time_minutes : ℚ) * 100)) ∧
    0 ≤ (generateSchedule o d).utilization_percentage ∧
    (generateSchedule o d).utilization_percentage ≤ 100 := by
  by_cases he : o.get_all_tasks = []
  · rw [generateSchedule, generateScheduleWith_empty _ _ _ he]
    refine ⟨fun _ => rfl, fun _ => ?_, by norm_num, by norm_num⟩
    norm_num [roundTo2]
  · by_cases hb : o.available_time_minutes ≤ 0
    · rw [generateSchedule, generateScheduleWith_nonpos _ _ _ he hb]
      by_cases h0 : o.available_time_minutes = 0
      · refine ⟨fun _ => by simp [calcUtilization, h0], fun hne => absurd h0 hne,
          ?_, ?_⟩ <;> simp [calcUtilization, h0]
      · refine ⟨fun h => absurd h h0, fun _ => ?_, ?_, ?_⟩
        · simp [calcUtilization, h0, calcTotalTime]
        · simp [calcUtilization, h0, calcTotalTime, roundTo2]
        · simp [calcUtilization, h0, calcTotalTime, roundTo2]
    · have hpos : 0 < o.available_time_minutes := by omega
      have hne0 : o.available_time_minutes ≠ 0 := by omega
      rw [generateSchedule, generateScheduleWith_pos _ _ _ he hb]
      have hdur' : ∀ t ∈ sortTasksDesc o.get_all_tasks, 0 ≤ t.duration_minutes :=
        fun t ht => le_of_lt (hdur t ((sortTasksDesc_perm _).mem_iff.mp ht))
      have htot := greedyLoop_total_bounds genReasoning
        (sortTasksDesc o.get_all_tasks).length o.available_time_minutes
        (sortTasksDesc o.get_all_tasks) 360 0 (by omega) hdur'
      have hq0 : (0 : ℚ) ≤
          ((calcTotalTime ((greedyLoop genReasoning
              (sortTasksDesc o.get_all_tasks).length o.available_time_minutes
              (sortTasksDesc o.get_all_tasks) 360 0).1) : ℚ) /
            (o.available_time_minutes : ℚ) * 100) := by
        have h1 : (0 : ℚ) ≤ (calcTotalTime ((greedyLoop genReasoning
            (sortTasksDesc o.get_all_tasks).length o.available_time_minutes
            (sortTasksDesc o.get_all_tasks) 360 0).1) : ℚ) := by
          exact_mod_cast htot.1
        have h2 : (0 : ℚ) < (o.available_time_minutes : ℚ) := by
          exact_mod_cast hpos
        positivity
      have hq1 : ((calcTotalTime ((greedyLoop genReasoning
            (sortTasksDesc o.get_all_tasks).length o.available_time_minutes
            (sortTasksDesc o.get_all_tasks) 360 0).1) : ℚ) /
            (o.available_time_minutes : ℚ) * 100) ≤ 100 := by
        have h2 : (0 : ℚ) < (o.available_time_minutes : ℚ) := by
          exact_mod_cast hpos
        have h3 : (calcTotalTime ((greedyLoop genReasoning
            (sortTasksDesc o.get_all_tasks).length o.available_time_minutes
            (sortTasksDesc o.get_all_tasks) 360 0).1) : ℚ) ≤
            (o.available_time_minutes : ℚ) := by
          exact_mod_cast htot.2
        have h4 : (calcTotalTime ((greedyLoop genReasoning
            (sortTasksDesc o.get_all_tasks).length o.available_time_minutes
            (sortTasksDesc o.get_all_tasks) 360 0).1) : ℚ) /
            (o.available_time_minutes : ℚ) ≤ 1 :=
          (div_le_one h2).mpr h3
        linarith
      have hbounds := roundTo2_bounds _ hq0 hq1
      refine ⟨fun h => absurd h hne0, fun _ => ?_, ?_, ?_⟩
      · simp [calcUtilization, hne0]
      · simpa [calcUtilization, hne0] using hbounds.1
      · simpa [calcUtilization, hne0] using hbounds.2

/-- Owner with a 100-minute budget and a single 50-minute task. -/
def ownerBudget100 : Owner :=
  { name := "Pat"
    available_time_minutes := 100
    pets := [{ name := "Dog", species := "dog"
               tasks := [{ title := "Long walk", duration_minutes := 50
                           priority := .high, category := .walk }] }] }

/-- C5 witness: with budget 100 and one 50-minute task the utilization is
exactly 50, and it lies in the guaranteed range. -/
theorem utilization_formula_and_range_witness :
    (generateSchedule ownerBudget100 0).utilization_percentage = 50 ∧
    0 ≤ (generateSchedule ownerBudget100 0).utilization_percentage ∧
    (generateSchedule ownerBudget100 0).utilization_percentage ≤ 100 := by
  refine ⟨?_, (utilization_formula_and_range ownerBudget100 0 (by decide)).2.2.1,
    (utilization_formula_and_range ownerBudget100 0 (by decide)).2.2.2⟩
  have h50 : (generateSchedule ownerBudget100 0).utilization_percentage =
      calcUtilization 50 100 := rfl
  rw [h50]
  norm_num [calcUtilization, roundTo2]

/-- C6. For every Owner with a non-positive budget and at least one task,
the generated schedule has no scheduled tasks, its unscheduled list is all
aggregated tasks, the total is 0 and the utilization is 0. -/
theorem nonpositive_budget_all_unscheduled (o : Owner) (d : Nat)
    (hb : o.available_time_minutes ≤ 0) (hne : o.get_all_tasks ≠ []) :
    (generateSchedule o d).scheduled_tasks = [] ∧
    (generateSchedule o d).unscheduled_tasks.Perm o.get_all_tasks ∧
    (generateSchedule o d).total_time_minutes = 0 ∧
    (generateSchedule o d).utilization_percentage = 0 := by
  rw [generateSchedule, generateScheduleWith_nonpos _ _ _ hne hb]
  refine ⟨rfl, sortTasksDesc_perm _, rfl, ?_⟩
  by_cases h0 : o.available_time_minutes = 0
  · simp [calcUtilization, h0]
  · simp [calcUtilization, h0, calcTotalTime, roundTo2]

/-- Owner with zero available minutes and one pending task. -/
def ownerZeroBudget : Owner :=
  { name := "Max"
    available_time_minutes := 0
    pets := [{ name := "Fish", species := "fish"
               tasks := [{ title := "Feed fish", duration_minutes := 20
                           priority := .medium, category := .feeding }] }] }

/-- C6 witness. -/
theorem nonpositive_budget_all_unscheduled_witness :
    (generateSchedule ownerZeroBudget 0).scheduled_tasks = [] ∧
    (generateSchedule ownerZeroBudget 0).unscheduled_tasks.Perm
      ownerZeroBudget.get_all_tasks ∧
    (generateSchedule ownerZeroBudget 0).total_time_minutes = 0 ∧
    (generateSchedule ownerZeroBudget 0).utilization_percentage = 0 :=
  nonpositive_budget_all_unscheduled ownerZeroBudget 0 (by decide) (by decide)

/-- Task with a negative duration: the dataclass accepts it unchecked. -/
def taskBad : Task :=
  { title := "Bad med", duration_minutes := -5, priority := .critical
    category := .medication }

/-- Owner holding the malformed task. -/
def ownerBad : Owner :=
  { name := "Chris"
    available_time_minutes := 30
    pets := [{ name := "Bird", species := "bird", tasks := [taskBad] }] }

/-- C7 (documenting the code bug). The source performs no construction-time
validation: a Task with duration -5 is representable, flows into the
scheduler unrejected, and is even scheduled (a negative duration always
"fits" the remaining budget).  The spec instead requires a clearly labeled
validation failure at construction time. -/
theorem construction_accepts_invalid_duration :
    taskBad.duration_minutes = -5 ∧
    (generateSchedule ownerBad 0).scheduled_tasks.map ScheduledTask.task =
      [taskBad] := by decide

/-- C8. `mark_complete` sets the completion flag of the task; for a
recurring task (frequency ≠ ONCE) it additionally returns a brand-new Task
agreeing with the original on every field except the completion flag, which
is false; for a one-time task it returns nothing.  The function touches no
Pet collection: it consumes and produces only Task values. -/
theorem mark_complete_spec (t : Task) :
    (t.mark_complete).1 = { t with is_completed := true } ∧
    (t.frequency ≠ TaskFrequency.once →
      (t.mark_complete).2 = some { t with is_completed := false }) ∧
    (t.frequency = TaskFrequency.once → (t.mark_complete).2 = none) := by
  by_cases h : t.frequency = TaskFrequency.once
  · simp [Task.mark_complete, h]
  · simp [Task.mark_complete, h]

/-- A recurring (daily) task used as the witness input. -/
def taskDailyWalk : Task :=
  { title := "Daily walk", duration_minutes := 20, priority := .high
    category := .walk, frequency := .daily }

/-- C8 witness. -/
theorem mark_complete_spec_witness :
    (taskDailyWalk.mark_complete).1 =
      { taskDailyWalk with is_completed := true } ∧
    (taskDailyWalk.mark_complete).2 =
      some { taskDailyWalk with is_completed := false } :=
  ⟨(mark_complete_spec taskDailyWalk).1,
   (mark_complete_spec taskDailyWalk).2.1 (by decide)⟩

/-- Helper: appending one element to a nonempty joined list appends one
separator and the element. -/
theorem joinSep_append_one (sep x : String) :
    ∀ l : List String, l ≠ [] →
      joinSep sep (l ++ [x]) = joinSep sep l ++ sep ++ x := by
  intro l
  induction l with
  | nil => intro h; exact absurd rfl h
  | cons a as ih =>
    intro _
    cases as with
    | nil => rfl
    | cons b bs =>
      have h2 : b :: bs ≠ [] := by simp
      show a ++ sep ++ joinSep sep ((b :: bs) ++ [x]) =
        a ++ sep ++ joinSep sep (b :: bs) ++ sep ++ x
      rw [ih h2]
      simp [String.append_assoc]

/-- C9 (amended). The reasoning string decomposes as the priority clause,
the optional category clause, and — exactly when the alternatives list
passed at selection time has at least 2 entries, i.e. at least ONE
candidate other than the selected task remained — a trailing clause naming
up to 2 of the other candidates' priority tiers as "chosen over"; and the
reasoning generator never affects which tasks are scheduled, their order,
their times, or any other schedule field. -/
theorem reasoning_clause_and_independence :
    (∀ (t : Task) (alts : List Task),
      genReasoning t alts =
        joinSep ". " ([priorityClause t] ++ categoryClauses t) ++
          (if 2 ≤ alts.length then
            ". chosen over " ++
              joinSep ", " (((alts.drop 1).take 2).map
                (fun a => a.priority.pyName)) ++ " priority tasks"
          else "") ++ ".") ∧
    (∀ (r₁ r₂ : Task → List Task → String) (o : Owner) (d : Nat),
      (generateScheduleWith r₁ o d).scheduled_tasks.map
          (fun st => (st.task, st.scheduled_time, st.order_index)) =
        (generateScheduleWith r₂ o d).scheduled_tasks.map
          (fun st => (st.task, st.scheduled_time, st.order_index)) ∧
      (generateScheduleWith r₁ o d).unscheduled_tasks =
        (generateScheduleWith r₂ o d).unscheduled_tasks ∧
      (generateScheduleWith r₁ o d).total_time_minutes =
        (generateScheduleWith r₂ o d).total_time_minutes ∧
      (generateScheduleWith r₁ o d).utilization_percentage =
        (generateScheduleWith r₂ o d).utilization_percentage) := by
  constructor
  · intro t alts
    match alts with
    | [] => simp [genReasoning]
    | [a] => simp [genReasoning]
    | a :: b :: rest =>
      have hlen : 1 < (a :: b :: rest).length := by simp
      have hlen2 : 2 ≤ (a :: b :: rest).length := hlen
      have hothers : ((a :: b :: rest).drop 1).take 2 = b :: rest.take 1 := by
        simp
      simp only [genReasoning, hothers, if_pos hlen, if_pos hlen2]
      have hne : (b :: rest.take 1).map (fun a => a.priority.pyName) ≠ [] := by
        simp
      rw [if_pos hne, joinSep_append_one _ _ _ (by simp)]
      simp only [String.append_assoc]
      rw [← String.append_assoc (". " : String) "chosen over "]
      simp
  · intro r₁ r₂ o d
    by_cases he : o.get_all_tasks = []
    · rw [generateScheduleWith_empty r₁ o d he, generateScheduleWith_empty r₂ o d he]
      exact ⟨rfl, rfl, rfl, rfl⟩
    · by_cases hb : o.available_time_minutes ≤ 0
      · rw [generateScheduleWith_nonpos r₁ o d he hb,
          generateScheduleWith_nonpos r₂ o d he hb]
        exact ⟨rfl, rfl, rfl, rfl⟩
      · rw [generateScheduleWith_pos r₁ o d he hb,
          generateScheduleWith_pos r₂ o d he hb]
        have h := greedyLoop_reason_irrelevant r₁ r₂
          (sortTasksDesc o.get_all_tasks).length o.available_time_minutes
          (sortTasksDesc o.get_all_tasks) 360 0
        have htask :
            (greedyLoop r₁ (sortTasksDesc o.get_all_tasks).length
              o.available_time_minutes (sortTasksDesc o.get_all_tasks) 360 0).1.map
                ScheduledTask.task =
            (greedyLoop r₂ (sortTasksDesc o.get_all_tasks).length
              o.available_time_minutes (sortTasksDesc o.get_all_tasks) 360 0).1.map
                ScheduledTask.task := by
          have hfst := congrArg (List.map Prod.fst) h.1
          simpa [List.map_map, Function.comp] using hfst
        have htot :
            calcTotalTime ((greedyLoop r₁ (sortTasksDesc o.get_all_tasks).length
              o.available_time_minutes (sortTasksDesc o.get_all_tasks) 360 0).1) =
            calcTotalTime ((greedyLoop r₂ (sortTasksDesc o.get_all_tasks).length
              o.available_time_minutes (sortTasksDesc o.get_all_tasks) 360 0).1) := by
          unfold calcTotalTime
          rw [show (fun (st : ScheduledTask) => st.task.duration_minutes) =
              (Task.duration_minutes ∘ ScheduledTask.task) from rfl,
            ← List.map_map, ← List.map_map, htask]
        exact ⟨h.1, h.2, htot, congrArg (fun x =>
          calcUtilization x o.available_time_minutes) htot⟩

/-- Critical medication task for the two-candidate example. -/
def taskMeds : Task :=
  { title := "Meds", duration_minutes := 10, priority := .critical
    category := .medication }

/-- Low-priority grooming task for the two-candidate example. -/
def taskBrush : Task :=
  { title := "Brush", duration_minutes := 10, priority := .low
    category := .grooming }

/-- Owner with exactly two tasks. -/
def ownerTwoTasks : Owner :=
  { name := "Dana"
    available_time_minutes := 100
    pets := [{ name := "Pup", species := "dog", tasks := [taskMeds, taskBrush] }] }

/-- C9 counterexample. The owner has exactly two tasks, so at the first
selection exactly ONE alternative candidate other than the selected task
remained — yet the first reasoning string already ends with a "chosen over"
clause, refuting the claim that the clause appears only when at least 2
other candidates remained. -/
theorem reasoning_clause_counterexample :
    ownerTwoTasks.get_all_tasks.length = 2 ∧
    (generateSchedule ownerTwoTasks 0).scheduled_tasks.map
        ScheduledTask.reasoning =
      ["CRITICAL priority - must be completed. medication should not be delayed. chosen over LOW priority tasks.",
       "LOW priority task."] := by decide

end PawPal
